import Mathlib

/-!
# Verification of the rusty-psn update pipeline

Shallow embedding of the update-resolution, download, hashing and merge
logic of the `rusty-psn` repository (`src/psn/mod.rs`, `src/psn/parser.rs`,
`src/psn/manifest_parser.rs`, `src/psn/utils.rs`, `src/utils.rs`), together
with theorems settling the frozen specification claims.

I/O boundaries (network responses, the tokenizer of the `quick_xml`
library, `serde_json` deserialization, the filesystem) are modelled as
explicit inputs: a fetched body is a `String` argument, the XML event
stream is a `List XmlEvent` argument, a piece manifest arrives as an
`Option Manifest` (`none` = JSON deserialization failure), and the
filesystem is an association list from paths to byte lists.
-/

set_option maxRecDepth 100000

deriving instance DecidableEq for Except

namespace Psn

/-! ## SHA-1 (model of the `sha1_smol` crate used by `src/utils.rs`)

Bytes are `Nat` values below 256; 32-bit machine words are `Nat` values
reduced modulo `2^32` after every arithmetic operation. -/

/-- Reduce to a 32-bit word. -/
def m32 (x : Nat) : Nat := x % 4294967296

/-- Rotate a 32-bit word left by `n` bits. -/
def rotl (n x : Nat) : Nat := m32 ((x <<< n) ||| (x >>> (32 - n)))

/-- SHA-1 round constant for round `i`. -/
def sha1K (i : Nat) : Nat :=
  if i < 20 then 1518500249
  else if i < 40 then 1859775393
  else if i < 60 then 2400959708
  else 3395469782

/-- SHA-1 round function for round `i` (complement taken in 32 bits). -/
def sha1F (i b c d : Nat) : Nat :=
  if i < 20 then (b &&& c) ||| ((b ^^^ 4294967295) &&& d)
  else if i < 40 then b ^^^ c ^^^ d
  else if i < 60 then (b &&& c) ||| (b &&& d) ||| (c &&& d)
  else b ^^^ c ^^^ d

/-- The five 32-bit words of SHA-1 working state. -/
structure Sha1State where
  a : Nat
  b : Nat
  c : Nat
  d : Nat
  e : Nat
deriving DecidableEq, Repr

/-- Big-endian 32-bit words from a byte list (groups of four). -/
def bytesToW32 : List Nat → List Nat
  | b0 :: b1 :: b2 :: b3 :: rest =>
      ((((b0 <<< 8) ||| b1) <<< 8 ||| b2) <<< 8 ||| b3) :: bytesToW32 rest
  | _ => []

/-- Extend the 16-word schedule, one word per unit of fuel. -/
def extendW (ws : List Nat) : Nat → List Nat
  | 0 => ws
  | fuel + 1 =>
      let n := ws.length
      let w := rotl 1 ((ws.getD (n - 3) 0) ^^^ (ws.getD (n - 8) 0) ^^^
        (ws.getD (n - 14) 0) ^^^ (ws.getD (n - 16) 0))
      extendW (ws ++ [w]) fuel

/-- One SHA-1 round: `iw` is the round index paired with the schedule word. -/
def sha1Step (st : Sha1State) (iw : Nat × Nat) : Sha1State :=
  let t := m32 (rotl 5 st.a + sha1F iw.1 st.b st.c st.d + st.e + sha1K iw.1 + iw.2)
  ⟨t, st.a, rotl 30 st.b, st.c, st.d⟩

/-- Compress one 64-byte block into the chaining state. -/
def sha1Block (h : Sha1State) (block : List Nat) : Sha1State :=
  let ws := extendW (bytesToW32 block) 64
  let r := ws.enum.foldl sha1Step h
  ⟨m32 (h.a + r.a), m32 (h.b + r.b), m32 (h.c + r.c), m32 (h.d + r.d), m32 (h.e + r.e)⟩

/-- Split a byte list into 64-byte blocks; structural recursion on fuel so
the definition reduces in the kernel. The fuel is always the list length,
which strictly exceeds the number of blocks. -/
def chunks64Go : Nat → List Nat → List (List Nat)
  | _, [] => []
  | 0, l => [l]
  | fuel + 1, l => l.take 64 :: chunks64Go fuel (l.drop 64)

/-- Split a byte list into 64-byte blocks. -/
def chunks64 (l : List Nat) : List (List Nat) := chunks64Go l.length l

/-- Big-endian 64-bit encoding of a length in bits. -/
def be64 (n : Nat) : List Nat :=
  [(n >>> 56) % 256, (n >>> 48) % 256, (n >>> 40) % 256, (n >>> 32) % 256,
   (n >>> 24) % 256, (n >>> 16) % 256, (n >>> 8) % 256, n % 256]

/-- SHA-1 padding: `0x80`, zeros to 56 mod 64, then the bit length. -/
def sha1Pad (msg : List Nat) : List Nat :=
  let z := (119 - msg.length % 64) % 64
  msg ++ 128 :: (List.replicate z 0 ++ be64 (8 * msg.length))

/-- SHA-1 initialization vector. -/
def sha1Init : Sha1State :=
  ⟨1732584193, 4023233417, 2562383102, 271733878, 3285377520⟩

/-- SHA-1 digest of a byte list, as the five chaining words. -/
def sha1Digest (msg : List Nat) : Sha1State :=
  (chunks64 (sha1Pad msg)).foldl sha1Block sha1Init

/-- Lower-case hex digit. -/
def hexDigit (d : Nat) : Char :=
  if d < 10 then Char.ofNat (48 + d) else Char.ofNat (87 + d)

/-- Eight lower-hex characters of a 32-bit word, most significant first. -/
def hex32 (w : Nat) : List Char :=
  [hexDigit ((w >>> 28) % 16), hexDigit ((w >>> 24) % 16),
   hexDigit ((w >>> 20) % 16), hexDigit ((w >>> 16) % 16),
   hexDigit ((w >>> 12) % 16), hexDigit ((w >>> 8) % 16),
   hexDigit ((w >>> 4) % 16), hexDigit (w % 16)]

/-- Lower-hex SHA-1 digest string of a byte list, as produced by
`Sha1::digest().to_string()` in `sha1_smol`. -/
def sha1hex (msg : List Nat) : String :=
  let h := sha1Digest msg
  String.mk (hex32 h.a ++ hex32 h.b ++ hex32 h.c ++ hex32 h.d ++ hex32 h.e)

example : sha1hex [] = "da39a3ee5e6b4b0d3255bfef95601890afd80709" := by decide

example : sha1hex [97] = "86f7e437faa5a7fce15d1ddcb9eaeaea377667b8" := by decide

/-! ## String helpers

Rust's `str::contains` (substring search) has no direct core analogue, so
it is defined here over `Char` lists. -/

/-- Whether `pat` is an initial segment of `l` (`==` on characters). -/
def startsWithList : List Char → List Char → Bool
  | _, [] => true
  | [], _ :: _ => false
  | a :: as, b :: bs => a == b && startsWithList as bs

/-- Whether `pat` occurs as a contiguous substring of `l`;
model of Rust's `str::contains` with a string pattern. -/
def containsList : List Char → List Char → Bool
  | [], pat => pat.isEmpty
  | a :: as, pat => startsWithList (a :: as) pat || containsList as pat

/-- Substring containment on strings. -/
def strContains (s pat : String) : Bool := containsList s.toList pat.toList

/-- Rust's `str::starts_with` with a string pattern. -/
def strStartsWith (s pat : String) : Bool := startsWithList s.toList pat.toList

/-- Rust's `str::ends_with` with a string pattern. -/
def strEndsWith (s pat : String) : Bool :=
  startsWithList s.toList.reverse pat.toList.reverse

/-- Rust's `str::is_empty`. -/
def strIsEmpty (s : String) : Bool := s.toList.isEmpty

/-- ASCII uppercase of one character (serials and the strings the code
uppercases are ASCII, where Rust's Unicode `to_uppercase` agrees). -/
def charUpper (c : Char) : Char :=
  if 97 ≤ c.toNat && c.toNat ≤ 122 then Char.ofNat (c.toNat - 32) else c

/-- Rust's `str::to_uppercase` (ASCII fragment). -/
def strToUpper (s : String) : String := String.mk (s.toList.map charUpper)

/-- Whitespace test used by Rust's `str::trim` (ASCII fragment). -/
def isWs (c : Char) : Bool := c == ' ' || c == '\t' || c == '\n' || c == '\r'

/-- Rust's `str::trim`: strip leading and trailing whitespace. -/
def strTrim (s : String) : String :=
  String.mk (((s.toList.dropWhile isWs).reverse.dropWhile isWs).reverse)

/-- Replace every occurrence of a non-empty pattern, fuelled by the input
length (each step consumes at least one character). -/
def replaceGo (pat rep : List Char) : Nat → List Char → List Char
  | _, [] => []
  | 0, l => l
  | fuel + 1, a :: as =>
      if startsWithList (a :: as) pat then
        rep ++ replaceGo pat rep fuel ((a :: as).drop pat.length)
      else
        a :: replaceGo pat rep fuel as

/-- Rust's `str::replace` with a string pattern. Every occurrence is
replaced, scanning left to right. (The empty-pattern corner case of Rust,
which interleaves the replacement at every boundary, does not occur in
this code base: the patterns used are `"-"`, `"\n"` and `"_<n>.pkg"`.) -/
def strReplace (s pat rep : String) : String :=
  if pat.toList.isEmpty then s
  else String.mk (replaceGo pat.toList rep.toList s.toList.length s.toList)

/-! ## Data model (`src/psn/mod.rs`, `src/psn/utils.rs`) -/

/-- Platform variant; the source's name (including its typo) is kept.
From `src/psn/utils.rs`. -/
inductive PlaformVariant where
  | PS3
  | PS4
deriving DecidableEq, Repr

/-- One downloadable unit. From `src/psn/mod.rs` (`struct PackageInfo`). -/
structure PackageInfo where
  url : String
  size : Nat
  version : String
  sha1sum : String
  hash_whole_file : Bool
  manifest_url : String
  offset : Nat
  part_number : Option Nat
deriving DecidableEq, Repr

/-- `PackageInfo::empty`. -/
def PackageInfo.empty : PackageInfo :=
  { url := ""
    size := 0
    version := ""
    sha1sum := ""
    hash_whole_file := false
    manifest_url := ""
    offset := 0
    part_number := none }

/-- One resolved update set. From `src/psn/mod.rs` (`struct UpdateInfo`). -/
structure UpdateInfo where
  title_id : String
  tag_name : String
  titles : List String
  packages : List PackageInfo
  platform_variant : PlaformVariant
deriving DecidableEq, Repr

/-- `UpdateInfo::empty`. -/
def UpdateInfo.empty (platform_variant : PlaformVariant) : UpdateInfo :=
  { title_id := ""
    tag_name := ""
    titles := []
    packages := []
    platform_variant := platform_variant }

/-- `UpdateInfo::title`: first title or the empty string. -/
def UpdateInfo.title (u : UpdateInfo) : String := (u.titles.head?).getD ""

/-- Resolution errors (`enum UpdateError`). The `Reqwest`, `XmlParsing`
and `ManifestParsing` payloads are external library error values and are
dropped in the model. -/
inductive UpdateError where
  | InvalidSerial
  | NoUpdatesAvailable
  | UnhandledErrorResponse (code : String)
  | Reqwest
  | XmlParsing
  | ManifestParsing
deriving DecidableEq, Repr

/-- Download progress events (`enum DownloadStatus`). -/
inductive DownloadStatus where
  | Progress (bytes : Nat)
  | Verifying
  | DownloadSuccess
  | DownloadFailure
deriving DecidableEq, Repr

/-- Merge progress events (`enum MergeStatus`). -/
inductive MergeStatus where
  | PartProgress (part : Nat)
  | MergeSuccess
  | MergeFailure
deriving DecidableEq, Repr

/-- Merge errors (`enum MergeError`). -/
inductive MergeError where
  | FilepathMismatch (reason : String)
  | FileMergeFailure
  | PackagesUnmergable (reason : String)
deriving DecidableEq, Repr

/-- Download errors (`enum DownloadError`); the boolean of `HashMismatch`
records whether less data than expected was received. The `Tokio` and
`Reqwest` payloads are external I/O error values, dropped in the model. -/
inductive DownloadError where
  | HashMismatch (receivedLess : Bool)
  | Tokio
  | Reqwest
deriving DecidableEq, Repr

/-! ## Title id normalization and variant classification -/

/-- `parse_title_id` (`src/psn/mod.rs`): trim whitespace, strip the `-`
separator, uppercase. -/
def parse_title_id (title_id : String) : String :=
  strToUpper (strReplace (strTrim title_id) "-" "")

/-- `get_platform_variant` (`src/psn/utils.rs`): `NP`/`BL`/`BC` are PS3,
`CUSA` is PS4, anything else is unclassified. -/
def get_platform_variant (title_id : String) : Option PlaformVariant :=
  if strStartsWith title_id "NP" || strStartsWith title_id "BL" ||
      strStartsWith title_id "BC" then
    some PlaformVariant.PS3
  else if strStartsWith title_id "CUSA" then
    some PlaformVariant.PS4
  else
    none

example : parse_title_id " bcus-98148 " = "BCUS98148" := by decide

/-! ## Manifest URL builder (`get_update_info_url`, `src/psn/utils.rs`)

The URL string itself only feeds the network request, which the model
treats as an input; what is retained is the error behaviour: the PS4 arm
decodes a fixed hex key (`hex::decode`) and fails with `InvalidSerial`
when the decode fails. (`HmacSha256::new_from_slice` accepts keys of any
length for SHA-256, so its error arm is unreachable and the MAC value
itself does not affect any claim.) -/

/-- Value of a hex digit character, as accepted by the `hex` crate. -/
def hexVal (c : Char) : Option Nat :=
  if 48 ≤ c.toNat && c.toNat ≤ 57 then some (c.toNat - 48)
  else if 97 ≤ c.toNat && c.toNat ≤ 102 then some (c.toNat - 87)
  else if 65 ≤ c.toNat && c.toNat ≤ 70 then some (c.toNat - 55)
  else none

/-- `hex::decode`: fails on odd length or an invalid digit. -/
def hexDecodeList : List Char → Option (List Nat)
  | [] => some []
  | [_] => none
  | a :: b :: rest =>
      match hexVal a, hexVal b, hexDecodeList rest with
      | some x, some y, some r => some ((x * 16 + y) :: r)
      | _, _, _ => none

/-- `hex::decode` on a string. -/
def hex_decode (s : String) : Option (List Nat) := hexDecodeList s.toList

/-- The fixed hex-encoded HMAC key from `get_update_info_url`. -/
def ps4KeyHex : String :=
  "AD62E37F905E06BC19593142281C112CEC0E7EC3E97EFDCAEFCDBAAFA6378D84"

/-- `get_update_info_url` (`src/psn/utils.rs`), keeping only the
success/error outcome (the produced URL feeds I/O outside the model). -/
def get_update_info_url (_title_id : String) (platform_variant : PlaformVariant) :
    Except UpdateError Unit :=
  match platform_variant with
  | .PS3 => .ok ()
  | .PS4 =>
      match hex_decode ps4KeyHex with
      | none => .error .InvalidSerial
      | some _ => .ok ()

/-- The fixed key decodes, so URL building never fails. -/
theorem get_update_info_url_ok (t : String) (v : PlaformVariant) :
    get_update_info_url t v = .ok () := by
  cases v
  · rfl
  · show (match hex_decode ps4KeyHex with
      | none => Except.error UpdateError.InvalidSerial
      | some _ => Except.ok ()) = Except.ok ()
    have h : hex_decode ps4KeyHex = some ((hex_decode ps4KeyHex).getD []) := by decide
    rw [h]

/-! ## `u64` parsing for the `size` attribute

Model of Rust's `str::parse::<u64>`: an optional leading `+`, then one or
more ASCII digits, rejecting overflow past `2^64 - 1`. -/

/-- Numeric value of a digit list (most significant first). -/
def digitsVal (l : List Char) : Nat :=
  l.foldl (fun acc c => acc * 10 + (c.toNat - 48)) 0

/-- `str::parse::<u64>`, as an `Option`. -/
def parse_u64 (s : String) : Option Nat :=
  let chars := s.toList
  let digits := match chars with
    | '+' :: rest => rest
    | _ => chars
  if digits.isEmpty then none
  else if digits.all (fun c => c.isDigit) then
    let v := digitsVal digits
    if v < 18446744073709551616 then some v else none
  else none

example : parse_u64 "12345" = some 12345 := by decide
example : parse_u64 "12a" = none := by decide
example : parse_u64 "" = none := by decide

/-! ## Hashing utility (`hash_file`, `src/utils.rs`)

The open file handle is modelled by the file's byte contents. `BufReader`
with a 128 MiB capacity delivers, at each `fill_buf`, the next
`min(CHUNK_SIZE, remaining)` bytes; `consume` advances the position. The
running `Sha1` accumulator is modelled by the list of bytes fed so far
(incremental SHA-1 over concatenation equals SHA-1 of the concatenation).
The fuel of the loop is the file length plus one: every iteration that
recurses consumes at least one byte. -/

/-- `CHUNK_SIZE` from `src/utils.rs`. -/
def CHUNK_SIZE : Nat := 134217728

/-- The read-hash loop of `hash_file`: returns the bytes fed to the
hasher. `processed` mirrors `processed_length`; the final chunk is cut at
`lenNS` (= `file_length_without_suffix`) so suffix bytes are never fed. -/
def hashLoop (file : List Nat) (lenNS : Nat) : Nat → Nat → List Nat → List Nat
  | 0, _, acc => acc
  | fuel + 1, processed, acc =>
      let chunk := (file.drop processed).take CHUNK_SIZE
      if chunk.length = 0 then acc
      else if lenNS < processed + chunk.length then
        acc ++ chunk.take (lenNS - processed)
      else
        hashLoop file lenNS fuel (processed + chunk.length) (acc ++ chunk)

/-- `hash_file` (`src/utils.rs`): PS3 packages (`hash_whole_file = false`)
carry a trailing `0x20`-byte digest suffix that is excluded from hashing;
a file no longer than the suffix is rejected without hashing. (The
`checked_sub` failure arm and the `usize` conversion failure arm of the
source are unreachable for the byte-list model; I/O errors are outside
the model.) -/
def hash_file (file : List Nat) (hash : String) (hash_whole_file : Bool) : Bool :=
  let suffix_size := if hash_whole_file then 0 else 32
  let file_length := file.length
  if file_length ≤ suffix_size then false
  else
    let file_length_without_suffix := file_length - suffix_size
    let fed := hashLoop file file_length_without_suffix (file_length + 1) 0 []
    sha1hex fed == hash

/-- The chunked loop feeds exactly the first `lenNS` bytes of the file
(minus what was already processed). -/
theorem hashLoop_eq_take (file : List Nat) (lenNS : Nat) :
    ∀ (fuel processed : Nat) (acc : List Nat),
      processed ≤ lenNS → lenNS ≤ file.length → file.length ≤ processed + fuel →
      hashLoop file lenNS fuel processed acc = acc ++ (file.take lenNS).drop processed := by
  intro fuel
  induction fuel with
  | zero =>
      intro processed acc h1 h2 h3
      have hlen : lenNS ≤ processed := le_trans h2 (by omega)
      have : (file.take lenNS).drop processed = [] := by
        apply List.drop_eq_nil_of_le
        simp only [List.length_take]
        omega
      simp [hashLoop, this]
  | succ fuel ih =>
      intro processed acc h1 h2 h3
      have hchunklen : ((file.drop processed).take CHUNK_SIZE).length =
          min CHUNK_SIZE (file.length - processed) := by
        simp [List.length_take, List.length_drop]
      by_cases hz : ((file.drop processed).take CHUNK_SIZE).length = 0
      · -- end of file: nothing remains, and nothing of `take lenNS` remains either
        have hfp : file.length ≤ processed := by
          rw [hchunklen] at hz
          have : CHUNK_SIZE = 0 ∨ file.length - processed = 0 := by omega
          rcases this with h | h
          · exact absurd h (by decide)
          · omega
        have hdrop : (file.take lenNS).drop processed = [] := by
          apply List.drop_eq_nil_of_le
          simp only [List.length_take]
          omega
        simp [hashLoop, hz, hdrop]
      · by_cases hcut : lenNS < processed + ((file.drop processed).take CHUNK_SIZE).length
        · -- final chunk: cut at the suffix boundary
          have hres : hashLoop file lenNS (fuel + 1) processed acc =
              acc ++ ((file.drop processed).take CHUNK_SIZE).take (lenNS - processed) := by
            simp only [hashLoop]
            rw [if_neg hz, if_pos hcut]
          rw [hres]
          congr 1
          rw [List.take_take]
          have hmin : min (lenNS - processed) CHUNK_SIZE = lenNS - processed := by
            rw [hchunklen] at hcut
            omega
          rw [hmin, List.drop_take]
        · -- full chunk: feed it and continue
          push_neg at hcut
          have hres : hashLoop file lenNS (fuel + 1) processed acc =
              hashLoop file lenNS fuel (processed + ((file.drop processed).take CHUNK_SIZE).length)
                (acc ++ (file.drop processed).take CHUNK_SIZE) := by
            simp only [hashLoop]
            rw [if_neg hz, if_neg (by omega)]
          rw [hres, ih _ _ hcut h2 (by rw [hchunklen]; omega)]
          rw [List.append_assoc]
          congr 1
          -- (take lenNS).drop processed splits as chunk ++ rest
          conv_rhs => rw [← List.take_append_drop
            ((file.drop processed).take CHUNK_SIZE).length
            ((file.take lenNS).drop processed)]
          congr 1
          · rw [List.drop_take, List.take_take, List.take_eq_take]
            simp only [List.length_take, List.length_drop] at hcut ⊢
            omega
          · rw [List.drop_drop]

/-- Closed form of `hash_file`: the file must be longer than the excluded
suffix, and the digest of exactly the pre-suffix bytes must match. -/
theorem hash_file_eq (file : List Nat) (hash : String) (w : Bool) :
    hash_file file hash w =
      ((if w then 0 else 32) < file.length &&
        (sha1hex (file.take (file.length - (if w then 0 else 32))) == hash)) := by
  by_cases h : file.length ≤ (if w then 0 else 32)
  · have h2 : ¬ ((if w then 0 else 32) < file.length) := by omega
    simp only [hash_file]
    rw [if_pos h]
    simp [h2]
  · have h2 : (if w then 0 else 32) < file.length := by omega
    simp only [hash_file]
    rw [if_neg h]
    rw [hashLoop_eq_take file (file.length - (if w then 0 else 32)) (file.length + 1) 0 []
      (by omega) (by omega) (by omega)]
    simp [h2]

/-! ## XML manifest parser (`parse_response`, `src/psn/parser.rs`)

The `quick_xml` reader (an external library) is modelled by its output:
the event stream is a `List XmlEvent` input. An attribute whose
`unescape_value` fails carries `value = none`; attributes whose parsing
fails entirely are dropped by the source's `filter_map(|a| a.ok())` and
simply do not appear in the list. A text node whose `unescape` fails
carries `none`. `other` stands for the event kinds the source's wildcard
arm ignores (comments, CData, declarations, ...). -/

/-- One XML attribute as delivered by `quick_xml`. -/
structure XmlAttr where
  key : String
  value : Option String
deriving DecidableEq, Repr

/-- One `quick_xml` event. -/
inductive XmlEvent where
  | start (name : String) (attrs : List XmlAttr)
  | endE
  | empty (name : String) (attrs : List XmlAttr)
  | text (content : Option String)
  | eof
  | other
deriving DecidableEq, Repr

/-- `parser::ParseError`; the `XmlParsing` payload (a `quick_xml` error
value) is dropped in the model. -/
inductive ParseError where
  | ErrorCode (code : String)
  | XmlParsing
deriving DecidableEq, Repr

/-- Apply `f` to the last element, as Rust's `last_mut` mutation. -/
def modifyLast (f : PackageInfo → PackageInfo) : List PackageInfo → List PackageInfo
  | [] => []
  | [x] => [f x]
  | x :: y :: rest => x :: modifyLast f (y :: rest)

/-- One attribute of a `package` element in start form
(the `b"package"` arm of `Event::Start`). -/
def stepPackageAttrStart (pkgs : List PackageInfo) (a : XmlAttr) :
    Except ParseError (List PackageInfo) :=
  if a.key = "version" then
    match a.value with
    | none => .error .XmlParsing
    | some v => .ok (pkgs ++ [{ PackageInfo.empty with version := v }])
  else if a.key = "size" then
    if pkgs.isEmpty then .ok pkgs
    else match a.value with
      | none => .error .XmlParsing
      | some v => .ok (modifyLast (fun last => { last with size := (parse_u64 v).getD 0 }) pkgs)
  else if a.key = "sha1sum" then
    if pkgs.isEmpty then .ok pkgs
    else match a.value with
      | none => .error .XmlParsing
      | some v => .ok (modifyLast (fun last => { last with sha1sum := v }) pkgs)
  else if a.key = "url" then
    if pkgs.isEmpty then .ok pkgs
    else match a.value with
      | none => .error .XmlParsing
      | some v => .ok (modifyLast (fun last => { last with url := v }) pkgs)
  else if a.key = "manifest_url" then
    if pkgs.isEmpty then .ok pkgs
    else match a.value with
      | none => .error .XmlParsing
      | some v => .ok (modifyLast (fun last => { last with manifest_url := v }) pkgs)
  else .ok pkgs

/-- One attribute of a `package` element in self-closing form
(the `b"package"` arm of `Event::Empty`): identical to the start form
except that it has no `manifest_url` arm. -/
def stepPackageAttrEmpty (pkgs : List PackageInfo) (a : XmlAttr) :
    Except ParseError (List PackageInfo) :=
  if a.key = "version" then
    match a.value with
    | none => .error .XmlParsing
    | some v => .ok (pkgs ++ [{ PackageInfo.empty with version := v }])
  else if a.key = "size" then
    if pkgs.isEmpty then .ok pkgs
    else match a.value with
      | none => .error .XmlParsing
      | some v => .ok (modifyLast (fun last => { last with size := (parse_u64 v).getD 0 }) pkgs)
  else if a.key = "sha1sum" then
    if pkgs.isEmpty then .ok pkgs
    else match a.value with
      | none => .error .XmlParsing
      | some v => .ok (modifyLast (fun last => { last with sha1sum := v }) pkgs)
  else if a.key = "url" then
    if pkgs.isEmpty then .ok pkgs
    else match a.value with
      | none => .error .XmlParsing
      | some v => .ok (modifyLast (fun last => { last with url := v }) pkgs)
  else .ok pkgs

/-- Process the attributes of one `package` element left to right. -/
def processAttrs (step : List PackageInfo → XmlAttr → Except ParseError (List PackageInfo)) :
    List XmlAttr → List PackageInfo → Except ParseError (List PackageInfo)
  | [], pkgs => .ok pkgs
  | a :: rest, pkgs =>
      match step pkgs a with
      | .error e => .error e
      | .ok pkgs2 => processAttrs step rest pkgs2

/-- Last value of attribute `key` (skipping failed unescapes), starting
from `init`; models the `titlepatch`/`tag` attribute scans. -/
def attrValueFold (key init : String) (attrs : List XmlAttr) : String :=
  attrs.foldl (fun cur a => if a.key = key then a.value.getD cur else cur) init

/-- Parser loop state: the record under construction plus the mutable
locals of `parse_response`. -/
structure PState where
  info : UpdateInfo
  depth : Int
  title_element : Bool
  err_encountered : Bool
  err_code_encountered : Bool
deriving DecidableEq, Repr

/-- Result of handling one event: continue with a new state, or stop
(end of stream). -/
inductive StepRes where
  | cont (st : PState)
  | stop (info : UpdateInfo)
deriving DecidableEq, Repr

/-- The name dispatch of the `Event::Start` arm of `parse_response`,
after the depth increment. -/
def handleStartCore (name : String) (attrs : List XmlAttr) (st : PState) :
    Except ParseError PState :=
  if name = "titlepatch" then
    .ok { st with info :=
      { st.info with title_id := attrValueFold "titleid" st.info.title_id attrs } }
  else if name = "tag" then
    .ok { st with info :=
      { st.info with tag_name := attrValueFold "name" st.info.tag_name attrs } }
  else if name = "package" then
    match processAttrs stepPackageAttrStart attrs st.info.packages with
    | .error e => .error e
    | .ok pkgs => .ok { st with info := { st.info with packages := pkgs } }
  else if name = "Error" then
    .ok { st with err_encountered := true }
  else if name = "Code" then
    if !st.err_encountered then .ok st
    else .ok { st with err_code_encountered := true }
  else if strStartsWith name "TITLE" then
    .ok { st with title_element := true }
  else .ok st

/-- The `Event::Start` arm of `parse_response`: `depth += 1`, then the
name dispatch. -/
def handleStart (name : String) (attrs : List XmlAttr) (st : PState) :
    Except ParseError PState :=
  handleStartCore name attrs { st with depth := st.depth + 1 }

/-- Handle one `quick_xml` event, as the `match` of `parse_response`. -/
def handleEvent (ev : XmlEvent) (st : PState) : Except ParseError StepRes :=
  match ev with
  | .start name attrs =>
      match handleStart name attrs st with
      | .error e => .error e
      | .ok st2 => .ok (.cont st2)
  | .endE => .ok (.cont { st with depth := st.depth - 1 })
  | .empty name attrs =>
      if name = "package" then
        match processAttrs stepPackageAttrEmpty attrs st.info.packages with
        | .error e => .error e
        | .ok pkgs => .ok (.cont { st with info := { st.info with packages := pkgs } })
      else .ok (.cont st)
  | .text content =>
      if st.title_element then
        match content with
        | none => .error .XmlParsing
        | some t => .ok (.cont { st with
            title_element := false
            info := { st.info with titles := st.info.titles ++ [t] } })
      else if st.err_code_encountered then
        match content with
        | none => .error .XmlParsing
        | some t => .error (.ErrorCode t)
      else .ok (.cont st)
  | .eof => .ok (.stop st.info)
  | .other => .ok (.cont st)

/-- The event loop of `parse_response`. An exhausted event list behaves
like `Eof` (the reader only ever ends a well-formed stream with `Eof`). -/
def parseLoop : List XmlEvent → PState → Except ParseError UpdateInfo
  | [], st => .ok st.info
  | ev :: rest, st =>
      match handleEvent ev st with
      | .error e => .error e
      | .ok (.stop info) => .ok info
      | .ok (.cont st2) => parseLoop rest st2

/-- `parse_response` (`src/psn/parser.rs`): run the event loop from the
initial mutable state. The end-of-stream depth and orphan-`Error` checks
of the source only log warnings and do not affect the result. -/
def parse_response (events : List XmlEvent) (info : UpdateInfo) :
    Except ParseError UpdateInfo :=
  parseLoop events
    { info := info
      depth := 0
      title_element := false
      err_encountered := false
      err_code_encountered := false }

/-! ## JSON piece-manifest parser (`src/psn/manifest_parser.rs`)

`serde_json` deserialization is external; a fetched piece manifest enters
the model as an `Option Manifest`, `none` standing for a JSON
deserialization failure. -/

/-- One piece of a split package (`struct Piece`). -/
structure Piece where
  url : String
  file_offset : Nat
  file_size : Nat
  hash_value : String
deriving DecidableEq, Repr

/-- A piece manifest (`struct Manifest`). -/
structure Manifest where
  original_file_size : Nat
  package_digest : String
  number_of_split_files : Nat
  pieces : List Piece
deriving DecidableEq, Repr

/-- `manifest_parser::ParseError`; the `JsonParsing` payload is dropped. -/
inductive MParseError where
  | NoPartsFound
  | JsonParsing
deriving DecidableEq, Repr

/-- `parse_manifest_response` (`src/psn/manifest_parser.rs`): appends one
`PackageInfo` per piece to the given package list. `part_number` is not
among the fields the source assigns, so it stays at
`PackageInfo.empty`'s `none`. -/
def parse_manifest_response (m : Option Manifest) (parent_manifest_package : PackageInfo)
    (packages : List PackageInfo) : Except MParseError (List PackageInfo) :=
  match m with
  | none => .error .JsonParsing
  | some manifest =>
      if manifest.pieces.isEmpty then .error .NoPartsFound
      else .ok (packages ++ manifest.pieces.enum.map (fun ip =>
        let version :=
          if manifest.number_of_split_files > 1 then
            parent_manifest_package.version ++ " - part " ++ toString (ip.1 + 1) ++
              " of " ++ toString manifest.number_of_split_files
          else parent_manifest_package.version
        { PackageInfo.empty with
            version := version
            sha1sum := ip.2.hash_value
            url := ip.2.url
            size := ip.2.file_size
            hash_whole_file := true
            offset := ip.2.file_offset }))

/-! ## Update resolver (`UpdateInfo::get_info`, `src/psn/mod.rs`)

Network fetches are inputs: `response_txt` is the manifest body,
`events` its tokenization by `quick_xml`, and `manifests` the
deserialized piece-manifest responses, consumed one per top-level PS4
package in order (a missing entry behaves like a deserialization
failure). Transport errors (`Reqwest`) are I/O outcomes outside the
model. -/

/-- The PS4 piece-expansion loop at the end of `get_info`, including the
error mapping (`NoPartsFound` to `NoUpdatesAvailable`, `JsonParsing` to
`ManifestParsing`). -/
def expandLoop : List PackageInfo → List (Option Manifest) → UpdateInfo →
    Except UpdateError UpdateInfo
  | [], _, info => .ok info
  | package :: rest, manifests, info =>
      match parse_manifest_response (manifests.head?.getD none) package info.packages with
      | .ok pkgs => expandLoop rest (manifests.drop 1) { info with packages := pkgs }
      | .error .NoPartsFound => .error .NoUpdatesAvailable
      | .error .JsonParsing => .error .ManifestParsing

/-- The BCUS98233 workaround of `get_info`: newlines inside titles become
spaces. -/
def fixTitles (info : UpdateInfo) : UpdateInfo :=
  { info with titles := info.titles.map (fun t => strReplace t "\n" " ") }

/-- The `Ok(())` arm of `get_info`'s parse match: reject empty results,
fix the titles, return directly for non-PS4 variants, and expand the
piece manifests for PS4. -/
def resolveParsed (platform_variant : PlaformVariant) (manifests : List (Option Manifest))
    (info : UpdateInfo) : Except UpdateError UpdateInfo :=
  if strIsEmpty info.title_id || info.packages.isEmpty then .error .NoUpdatesAvailable
  else if platform_variant ≠ PlaformVariant.PS4 then .ok (fixTitles info)
  else expandLoop (fixTitles info).packages manifests { fixTitles info with packages := [] }

/-- `UpdateInfo::get_info` (`src/psn/mod.rs`). -/
def get_info (title_id_raw : String) (response_txt : String) (events : List XmlEvent)
    (manifests : List (Option Manifest)) : Except UpdateError UpdateInfo :=
  let title_id := parse_title_id title_id_raw
  match get_platform_variant title_id with
  | none => .error .InvalidSerial
  | some platform_variant =>
      match get_update_info_url title_id platform_variant with
      | .error err => .error err
      | .ok _ =>
          if strIsEmpty response_txt then .error .NoUpdatesAvailable
          else if strContains response_txt "Not found" then .error .InvalidSerial
          else
            match parse_response events (UpdateInfo.empty platform_variant) with
            | .ok info => resolveParsed platform_variant manifests info
            | .error (.ErrorCode reason) =>
                if reason = "NoSuchKey" then .error .InvalidSerial
                else .error (.UnhandledErrorResponse reason)
            | .error .XmlParsing => .error .XmlParsing

example :
    get_info "NPUA80523" "<resp>" [
      .start "titlepatch" [⟨"titleid", some "NPUA80523"⟩],
      .start "package" [⟨"version", some "01.00"⟩, ⟨"size", some "123"⟩],
      .eof] []
    = .ok
      { title_id := "NPUA80523"
        tag_name := ""
        titles := []
        packages := [{ PackageInfo.empty with version := "01.00", size := 123 }]
        platform_variant := .PS3 } := by decide

/-! ## Paths and the filesystem model (`src/utils.rs`, `src/psn/utils.rs`)

The filesystem is an association list from path strings to byte lists.
Paths are joined with `/` (the unix target; the source's
`INVALID_CHARS` for unix is just `['/']`). -/

/-- The unix `INVALID_CHARS` of `src/utils.rs`. -/
def INVALID_CHARS : List Char := ['/']

/-- `sanitize_title`: replace path-hostile characters with `_`. -/
def sanitize_title (title : String) : String :=
  String.mk (title.toList.map (fun c => if INVALID_CHARS.contains c then '_' else c))

/-- `create_new_pkg_path`: `<root>/<SERIAL> - <sanitized title>`. -/
def create_new_pkg_path (download_path serial title : String) : String :=
  download_path ++ "/" ++ serial ++ " - " ++ sanitize_title title

/-- Filesystem model: association list from paths to contents. -/
abbrev Fs : Type := List (String × List Nat)

/-- Contents at a path, if the file exists. -/
def fsGet (fs : Fs) (path : String) : Option (List Nat) :=
  match List.find? (fun e => e.1 = path) fs with
  | some e => some e.2
  | none => none

/-- Create or overwrite the file at a path. -/
def fsSet : Fs → String → List Nat → Fs
  | [], path, data => [(path, data)]
  | e :: rest, path, data =>
      if e.1 = path then (path, data) :: rest else e :: fsSet rest path data

/-- `copy_pkg_file` (`src/psn/utils.rs`): open the source read-only
(failing if absent, `create(false)`), open or create the target without
truncation (`create(true)`), seek the target to `offset` when positive,
and copy the whole source there (`copy_buf`); returns the bytes read.
Writing past the target's end-of-file after a seek fills the gap with
zeros, as on a real file. I/O failures other than a missing source are
outside the byte-list model. -/
def copy_pkg_file (fs : Fs) (src_path target_path : String) (offset : Nat) :
    Except Unit (Fs × Nat) :=
  match fsGet fs src_path with
  | none => .error ()
  | some data =>
      let target := (fsGet fs target_path).getD []
      let padded :=
        if target.length < offset then target ++ List.replicate (offset - target.length) 0
        else target
      let merged := padded.take offset ++ data ++ padded.drop (offset + data.length)
      .ok (fsSet fs target_path merged, data.length)

/-! ## Merge engine (`UpdateInfo::merge_parts`, `src/psn/mod.rs`) -/

/-- `PackageInfo::file_name`: parse the package URL (`reqwest::Url`) and
take the last path segment, `none` when the URL does not parse or the
segment is empty. The model is faithful for http(s) URLs with a
non-empty path and no query or fragment, which is the only shape the
vendor serves; a URL without a scheme separator fails to parse. -/
def PackageInfo.file_name (pkg : PackageInfo) : Option String :=
  if strContains pkg.url "://" then
    let seg := (pkg.url.toList.reverse.takeWhile (fun c => c ≠ '/')).reverse
    if seg.isEmpty then none else some (String.mk seg)
  else none

/-- A recorded filesystem access of the merge engine: one
`copy_pkg_file` invocation (each implies opening the source and the
target and writing the target). -/
inductive FsOp where
  | copy (src target : String) (offset : Nat)
deriving DecidableEq, Repr

/-- Result of a merge run: the returned value, the progress events sent,
the final filesystem, and the filesystem accesses performed. -/
structure MergeOut where
  result : Except MergeError Unit
  events : List MergeStatus
  fs : Fs
  ops : List FsOp
deriving DecidableEq

/-- The per-package loop of `merge_parts`. `part_number.getD 0` models
the source's `unwrap()`, which the caller's all-`is_some` check makes
safe; `toString (part_number - 1)` models `format!("_{}.pkg",
part_number - 1)` (`Nat` subtraction truncates where the source's
debug-mode `usize` subtraction would panic on `part_number = 0`, a value
no code path produces). A failed copy still records its attempted
access. -/
def mergeLoop (package_download_path : String) :
    List PackageInfo → Fs → List MergeStatus → List FsOp → MergeOut
  | [], fs, events, ops =>
      { result := .ok (), events := events ++ [.MergeSuccess], fs := fs, ops := ops }
  | package :: rest, fs, events, ops =>
      match package.file_name with
      | none =>
          { result := .error (.FilepathMismatch "could not deduce filename from a package url")
            events := events, fs := fs, ops := ops }
      | some file_name =>
          let part_number := package.part_number.getD 0
          let expected_end_of_file_name := "_" ++ toString (part_number - 1) ++ ".pkg"
          if !strEndsWith file_name expected_end_of_file_name then
            { result := .error
                (.FilepathMismatch "package name does not end with expected index and extension")
              events := events, fs := fs, ops := ops }
          else
            let merged_file_name := strReplace file_name expected_end_of_file_name ".pkg"
            let merged_path := package_download_path ++ "/" ++ merged_file_name
            let package_path := package_download_path ++ "/" ++ file_name
            match copy_pkg_file fs package_path merged_path package.offset with
            | .ok (fs2, _read_length) =>
                mergeLoop package_download_path rest fs2
                  (events ++ [.PartProgress part_number])
                  (ops ++ [.copy package_path merged_path package.offset])
            | .error _ =>
                { result := .error .FileMergeFailure
                  events := events, fs := fs
                  ops := ops ++ [.copy package_path merged_path package.offset] }

/-- `UpdateInfo::merge_parts` (`src/psn/mod.rs`). Note that the source
builds `packages_sorted_by_part_number` and never reads it again: the
merge loop iterates `self.packages` in their original order. The model
keeps the dead binding. -/
def merge_parts (info : UpdateInfo) (download_path : String) (fs : Fs) : MergeOut :=
  if !(info.packages.all (fun pkg => pkg.part_number.isSome)) then
    { result := .error (.PackagesUnmergable "some packages for the update are not a partial package")
      events := [], fs := fs, ops := [] }
  else
    let _packages_sorted_by_part_number :=
      info.packages.mergeSort (fun a b => a.part_number.getD 0 ≤ b.part_number.getD 0)
    let package_download_path := create_new_pkg_path download_path info.title_id info.title
    mergeLoop package_download_path info.packages fs [] []

/-! ## Download engine (`PackageInfo::start_download`, `src/psn/mod.rs`)

The HTTPS response is an input: its body is the list of chunks the
`response.chunk()` loop would deliver. The destination file opened by
`create_pkg_file` (`OpenOptions` with `create(true)` and no truncation,
so an existing file's contents are preserved) enters the model as the
`pkg_file` byte list; the directory bookkeeping of `create_pkg_file`
(renaming a legacy directory, creating parents) does not affect the
contents and is abstracted away. The file name derived from the response
URL only selects that path. I/O and transport failures are outside the
model. -/

/-- Result of a download run: the progress events sent, the final file
contents, `received_data`, and the returned value. -/
structure DlOut where
  events : List DownloadStatus
  file : List Nat
  received_data : Nat
  result : Except DownloadError Unit
deriving DecidableEq

/-- `PackageInfo::start_download` (`src/psn/mod.rs`): verify the existing
file first; if it already matches, succeed without reading any body
chunk. Otherwise truncate to zero (`set_len(0)`), seek to the start,
append each chunk (emitting a `Progress` event with the chunk length,
before the write, as the source does), flush, re-verify and either
succeed or fail with `HashMismatch(received_data < size)`. -/
def start_download (pkg : PackageInfo) (pkg_file : List Nat) (chunks : List (List Nat)) :
    DlOut :=
  if hash_file pkg_file pkg.sha1sum pkg.hash_whole_file then
    { events := [.Verifying, .DownloadSuccess]
      file := pkg_file
      received_data := 0
      result := .ok () }
  else
    let final_file := chunks.foldl (fun acc c => acc ++ c) []
    let received_data := (chunks.map (fun c => c.length)).sum
    let progress := chunks.map (fun c => DownloadStatus.Progress c.length)
    if hash_file final_file pkg.sha1sum pkg.hash_whole_file then
      { events := .Verifying :: progress ++ [.Verifying, .DownloadSuccess]
        file := final_file
        received_data := received_data
        result := .ok () }
    else
      { events := .Verifying :: progress ++ [.Verifying, .DownloadFailure]
        file := final_file
        received_data := received_data
        result := .error (.HashMismatch (received_data < pkg.size)) }

example : (toString (1 : Nat)) = "1" := by decide

example :
    parse_manifest_response
      (some { original_file_size := 10
              package_digest := "d"
              number_of_split_files := 2
              pieces := [⟨"http://h/a_0.pkg", 0, 5, "h1"⟩, ⟨"http://h/a_1.pkg", 5, 5, "h2"⟩] })
      { PackageInfo.empty with version := "1.00" } []
    = .ok
      [{ PackageInfo.empty with
          version := "1.00 - part 1 of 2", sha1sum := "h1", url := "http://h/a_0.pkg"
          size := 5, hash_whole_file := true, offset := 0 },
       { PackageInfo.empty with
          version := "1.00 - part 2 of 2", sha1sum := "h2", url := "http://h/a_1.pkg"
          size := 5, hash_whole_file := true, offset := 5 }] := by decide

/-! ## Claims -/

/-- C10: serial normalization trims whitespace, strips `-` and
uppercases; classification maps `NP`/`BL`/`BC` to the PS3 (Variant3)
family, `CUSA` to PS4 (Variant4), and anything else fails; in
particular `"bcus-98148"` normalizes to `"BCUS98148"` and classifies as
PS3, `"cusa00001"` classifies as PS4, and `"xx00000"` fails, which the
resolver surfaces as `InvalidSerial` whatever the network returns. -/
theorem claim_c10_normalize_classify :
    parse_title_id "bcus-98148" = "BCUS98148" ∧
    get_platform_variant (parse_title_id "bcus-98148") = some PlaformVariant.PS3 ∧
    get_platform_variant (parse_title_id "cusa00001") = some PlaformVariant.PS4 ∧
    get_platform_variant (parse_title_id "xx00000") = none ∧
    (∀ t, get_platform_variant t = some PlaformVariant.PS3 ↔
      (strStartsWith t "NP" || strStartsWith t "BL" || strStartsWith t "BC") = true) ∧
    (∀ t, get_platform_variant t = some PlaformVariant.PS4 ↔
      ((strStartsWith t "NP" || strStartsWith t "BL" || strStartsWith t "BC") = false ∧
        strStartsWith t "CUSA" = true)) ∧
    (∀ (resp : String) (events : List XmlEvent) (manifests : List (Option Manifest)),
      get_info "xx00000" resp events manifests = .error .InvalidSerial) := by
  refine ⟨by decide, by decide, by decide, by decide, ?_, ?_, ?_⟩
  · intro t
    unfold get_platform_variant
    cases h : (strStartsWith t "NP" || strStartsWith t "BL" || strStartsWith t "BC") with
    | true => simp [h]
    | false =>
        cases hc : strStartsWith t "CUSA" with
        | true => simp [h, hc]
        | false => simp [h, hc]
  · intro t
    unfold get_platform_variant
    cases h : (strStartsWith t "NP" || strStartsWith t "BL" || strStartsWith t "BC") with
    | true => simp [h]
    | false =>
        cases hc : strStartsWith t "CUSA" with
        | true => simp [h, hc]
        | false => simp [h, hc]
  · intro resp events manifests
    have h : get_platform_variant (parse_title_id "xx00000") = none := by decide
    simp [get_info, h]

/-- C8: with a classifiable serial, an empty manifest body yields
`NoUpdatesAvailable` and a body containing the literal substring
`"Not found"` yields `InvalidSerial`; both outcomes hold for every
possible XML event stream and piece-manifest response, which is the
model's expression of "checked before any XML parsing is attempted". -/
theorem claim_c8_pre_parse_checks (raw resp : String) (events : List XmlEvent)
    (manifests : List (Option Manifest)) (v : PlaformVariant)
    (hv : get_platform_variant (parse_title_id raw) = some v) :
    (resp = "" → get_info raw resp events manifests = .error .NoUpdatesAvailable) ∧
    (strContains resp "Not found" = true →
      get_info raw resp events manifests = .error .InvalidSerial) := by
  have hurl := get_update_info_url_ok (parse_title_id raw) v
  constructor
  · intro he
    subst he
    simp [get_info, hv, hurl, strIsEmpty]
  · intro hnf
    have he : strIsEmpty resp = false := by
      unfold strIsEmpty
      unfold strContains at hnf
      cases hx : resp.toList with
      | nil => rw [hx] at hnf; simp [containsList] at hnf
      | cons a as => simp
    simp [get_info, hv, hurl, he, hnf]

/-- C8 witness: concrete runs of both checks for the PS3 serial
`NPUA80523`. -/
theorem claim_c8_pre_parse_checks_witness :
    get_info "NPUA80523" "" [.start "titlepatch" []] [] = .error .NoUpdatesAvailable ∧
    get_info "NPUA80523" "Not found" [.start "titlepatch" []] [] = .error .InvalidSerial := by
  have hv : get_platform_variant (parse_title_id "NPUA80523") = some PlaformVariant.PS3 := by
    decide
  exact ⟨(claim_c8_pre_parse_checks "NPUA80523" "" [.start "titlepatch" []] [] _ hv).1 rfl,
    (claim_c8_pre_parse_checks "NPUA80523" "Not found" [.start "titlepatch" []] [] _ hv).2
      (by decide)⟩

/-- C9: if any package lacks a part number, `merge_parts` fails with
`PackagesUnmergable` before touching the filesystem: no event is sent,
no filesystem access is recorded, and the filesystem is unchanged. -/
theorem claim_c9_unmergable_before_fs (info : UpdateInfo) (download_path : String) (fs : Fs)
    (h : ∃ pkg ∈ info.packages, pkg.part_number = none) :
    merge_parts info download_path fs =
      { result := .error
          (.PackagesUnmergable "some packages for the update are not a partial package")
        events := [], fs := fs, ops := [] } := by
  obtain ⟨pkg, hmem, hnone⟩ := h
  have hall : info.packages.all (fun p => p.part_number.isSome) = false := by
    rw [List.all_eq_false]
    exact ⟨pkg, hmem, by simp [hnone]⟩
  simp [merge_parts, hall]

/-- C9 witness: a one-package update without a part number. -/
theorem claim_c9_unmergable_before_fs_witness :
    merge_parts
      { title_id := "CUSA00001", tag_name := "", titles := ["G"]
        packages := [{ PackageInfo.empty with url := "http://h/g_0.pkg" }]
        platform_variant := .PS4 }
      "dl" [("dl/CUSA00001 - G/g_0.pkg", [1, 2, 3])] =
      { result := .error
          (.PackagesUnmergable "some packages for the update are not a partial package")
        events := [], fs := [("dl/CUSA00001 - G/g_0.pkg", [1, 2, 3])], ops := [] } :=
  claim_c9_unmergable_before_fs _ "dl" _
    ⟨{ PackageInfo.empty with url := "http://h/g_0.pkg" }, by decide, by decide⟩

/-- C5 counterexample: the claim's "verifies exactly when the SHA-1 digest
of the first `length - 32` bytes matches" fails at a file of exactly 32
bytes whose expected digest is the digest of the empty byte string: the
code rejects any file whose length is at most 32 (`<=` in the source),
yet the first `32 - 32 = 0` bytes hash to the expected digest. -/
theorem claim_c5_counterexample :
    ¬ (hash_file (List.replicate 32 0) "da39a3ee5e6b4b0d3255bfef95601890afd80709" false = true ↔
        sha1hex ((List.replicate 32 0).take ((List.replicate 32 0).length - 32)) =
          "da39a3ee5e6b4b0d3255bfef95601890afd80709") := by decide

/-- C5 amended: with `hash_whole_file = false` the utility verifies a
file exactly when the file is strictly longer than 32 bytes and the
SHA-1 lower-hex digest of its first `length - 32` bytes equals the
expected digest (so the trailing 32 bytes are never fed to the hash);
any file of length at most 32 — in particular any file shorter than 32
bytes — is declared unverified without hashing. -/
theorem claim_c5_amended_suffix_hashing (file : List Nat) (hash : String) :
    (hash_file file hash false = true ↔
      32 < file.length ∧ sha1hex (file.take (file.length - 32)) = hash) ∧
    (file.length ≤ 32 → hash_file file hash false = false) := by
  have h := hash_file_eq file hash false
  simp only [Bool.if_false_right, Bool.if_false_left, if_neg, Bool.false_eq_true,
    ite_false] at h
  constructor
  · rw [h]
    simp [Bool.and_eq_true, decide_eq_true_eq, beq_iff_eq]
  · intro hle
    rw [h]
    have : ¬ (32 < file.length) := by omega
    simp [this]

/-- C5 witness: a 33-byte file verifies against the digest of its first
byte, and a 10-byte file is rejected. -/
theorem claim_c5_amended_suffix_hashing_witness :
    hash_file (List.replicate 33 0) "5ba93c9db0cff93f52b521d7420e43f6eda2784f" false = true ∧
    hash_file (List.replicate 10 0) "5ba93c9db0cff93f52b521d7420e43f6eda2784f" false = false :=
  ⟨(claim_c5_amended_suffix_hashing (List.replicate 33 0) _).1.mpr (by constructor <;> decide),
   (claim_c5_amended_suffix_hashing (List.replicate 10 0) _).2 (by decide)⟩

/-- C4 counterexample: the same `package` element parsed in start form
and in self-closing form produces different results when a
`manifest_url` attribute is present — the self-closing arm of the source
has no `manifest_url` case and leaves the field empty. -/
theorem claim_c4_counterexample :
    parse_response
        [.start "package" [⟨"version", some "1.00"⟩, ⟨"manifest_url", some "http://m"⟩], .eof]
        (UpdateInfo.empty .PS4) ≠
      parse_response
        [.empty "package" [⟨"version", some "1.00"⟩, ⟨"manifest_url", some "http://m"⟩], .eof]
        (UpdateInfo.empty .PS4) := by decide

/-- An attribute other than `manifest_url` is processed identically by
the start form and the self-closing form of a `package` element. -/
theorem stepEmpty_eq_start (pkgs : List PackageInfo) (a : XmlAttr)
    (h : ¬ a.key = "manifest_url") :
    stepPackageAttrEmpty pkgs a = stepPackageAttrStart pkgs a := by
  unfold stepPackageAttrEmpty stepPackageAttrStart
  by_cases h1 : a.key = "version" <;> by_cases h2 : a.key = "size" <;>
    by_cases h3 : a.key = "sha1sum" <;> by_cases h4 : a.key = "url" <;>
    simp [h1, h2, h3, h4, h]

/-- C4 amended: the start and self-closing forms populate `version`,
`size`, `sha1sum` and `url` identically — in both, a `size` that fails
unsigned-integer parsing defaults to 0 without an error — but the
self-closing form ignores a `manifest_url` attribute (processing it like
an unknown key), so the two forms agree exactly on attribute lists
containing no `manifest_url`. -/
theorem claim_c4_amended_empty_form (attrs : List XmlAttr) (pkgs : List PackageInfo) :
    processAttrs stepPackageAttrEmpty attrs pkgs =
      processAttrs stepPackageAttrStart
        (attrs.filter (fun a => a.key ≠ "manifest_url")) pkgs ∧
    (∀ (a : XmlAttr), ¬ a.key = "manifest_url" →
      stepPackageAttrEmpty pkgs a = stepPackageAttrStart pkgs a) ∧
    (∀ (v : String), parse_u64 v = none →
      stepPackageAttrStart pkgs { key := "size", value := some v } =
        .ok (modifyLast (fun last => { last with size := 0 }) pkgs) ∧
      stepPackageAttrEmpty pkgs { key := "size", value := some v } =
        .ok (modifyLast (fun last => { last with size := 0 }) pkgs)) := by
  refine ⟨?_, fun a h => stepEmpty_eq_start pkgs a h, ?_⟩
  · induction attrs generalizing pkgs with
    | nil => rfl
    | cons a rest ih =>
        by_cases hk : a.key = "manifest_url"
        · have hstep : stepPackageAttrEmpty pkgs a = .ok pkgs := by
            unfold stepPackageAttrEmpty
            simp [hk]
          have hfil : (a :: rest).filter (fun a => a.key ≠ "manifest_url") =
              rest.filter (fun a => a.key ≠ "manifest_url") := by
            simp [hk]
          rw [hfil]
          simp only [processAttrs, hstep]
          exact ih pkgs
    -- a non-manifest_url attribute is kept by the filter and handled identically
        · have hstep := stepEmpty_eq_start pkgs a hk
          have hfil : (a :: rest).filter (fun a => a.key ≠ "manifest_url") =
              a :: rest.filter (fun a => a.key ≠ "manifest_url") := by
            simp [List.filter, hk]
          rw [hfil]
          simp only [processAttrs, hstep]
          cases hs : stepPackageAttrStart pkgs a with
          | error e => rfl
          | ok pkgs2 => exact ih pkgs2
  · intro v hv
    constructor
    · unfold stepPackageAttrStart
      by_cases hp : pkgs.isEmpty
      · have : pkgs = [] := by
          cases pkgs
          · rfl
          · simp [List.isEmpty] at hp
        subst this
        simp [modifyLast]
      · simp [hp, hv]
    · unfold stepPackageAttrEmpty
      by_cases hp : pkgs.isEmpty
      · have : pkgs = [] := by
          cases pkgs
          · rfl
          · simp [List.isEmpty] at hp
        subst this
        simp [modifyLast]
      · simp [hp, hv]

/-- C4 witness: concrete runs of the hypothesis-bearing parts: a `url`
attribute is handled identically by both forms, and an unparsable `size`
defaults to 0 in both. -/
theorem claim_c4_amended_empty_form_witness :
    stepPackageAttrEmpty [PackageInfo.empty] ⟨"url", some "http://u"⟩ =
      stepPackageAttrStart [PackageInfo.empty] ⟨"url", some "http://u"⟩ ∧
    stepPackageAttrStart [PackageInfo.empty] ⟨"size", some "12a"⟩ =
      .ok (modifyLast (fun last => { last with size := 0 }) [PackageInfo.empty]) ∧
    stepPackageAttrEmpty [PackageInfo.empty] ⟨"size", some "12a"⟩ =
      .ok (modifyLast (fun last => { last with size := 0 }) [PackageInfo.empty]) :=
  ⟨(claim_c4_amended_empty_form [] [PackageInfo.empty]).2.1 ⟨"url", some "http://u"⟩ (by decide),
   ((claim_c4_amended_empty_form [] [PackageInfo.empty]).2.2 "12a" (by decide)).1,
   ((claim_c4_amended_empty_form [] [PackageInfo.empty]).2.2 "12a" (by decide)).2⟩

/-- C2 counterexample: expanding a two-piece manifest with
`numberOfSplitFiles = 2` under parent version `"1.00"` produces pieces
whose version is `"1.00 - part i of 2"` — not the parent's version — and
whose `part_number` is `none` — not `Some(index+1)`. -/
theorem claim_c2_counterexample :
    (parse_manifest_response
        (some { original_file_size := 10, package_digest := "d",
                number_of_split_files := 2,
                pieces := [⟨"http://h/a_0.pkg", 0, 5, "h1"⟩, ⟨"http://h/a_1.pkg", 5, 5, "h2"⟩] })
        { PackageInfo.empty with version := "1.00" } []).map
        (fun pkgs => pkgs.map (fun p => (p.version, p.part_number)))
      = .ok [("1.00 - part 1 of 2", none), ("1.00 - part 2 of 2", none)] ∧
    ¬ ("1.00 - part 1 of 2" = "1.00") ∧ ¬ ((none : Option Nat) = some 1) := by decide

/-- C2 amended: every piece record produced by piece-manifest expansion
has `part_number = none` (the parser never assigns part numbers), and its
version equals the parent package's version when the manifest declares at
most one split file, and otherwise equals the parent's version suffixed
with `" - part <index+1> of <numberOfSplitFiles>"`. -/
theorem claim_c2_amended_piece_fields (m : Manifest) (parent : PackageInfo)
    (packages out : List PackageInfo)
    (h : parse_manifest_response (some m) parent packages = .ok out) :
    ∃ pieces : List PackageInfo,
      out = packages ++ pieces ∧ pieces.length = m.pieces.length ∧
      ∀ i (hi : i < pieces.length),
        (pieces.get ⟨i, hi⟩).part_number = none ∧
        (pieces.get ⟨i, hi⟩).version =
          (if m.number_of_split_files > 1 then
            parent.version ++ " - part " ++ toString (i + 1) ++ " of " ++
              toString m.number_of_split_files
          else parent.version) := by
  unfold parse_manifest_response at h
  by_cases he : m.pieces.isEmpty
  · simp [he] at h
  · simp only [he, if_neg, Bool.false_eq_true, ite_false, Except.ok.injEq] at h
    refine ⟨_, h.symm, by simp, ?_⟩
    intro i hi
    refine ⟨?_, ?_⟩ <;>
      simp [List.get_eq_getElem, List.getElem_map, List.getElem_enum, PackageInfo.empty]

/-- Single-piece manifest for the C2 witness run. -/
def c2Manifest : Manifest :=
  { original_file_size := 3, package_digest := "d", number_of_split_files := 1
    pieces := [⟨"http://h/b.pkg", 0, 3, "h"⟩] }

/-- Parent package for the C2 witness run. -/
def c2Parent : PackageInfo := { PackageInfo.empty with version := "2.00" }

/-- Expansion output for the C2 witness run. -/
def c2Out : List PackageInfo :=
  [{ PackageInfo.empty with
      version := "2.00", sha1sum := "h", url := "http://h/b.pkg"
      size := 3, hash_whole_file := true, offset := 0 }]

/-- C2 witness: a single-piece manifest (`numberOfSplitFiles = 1`) keeps
the parent's version on its one piece, with `part_number = none`. -/
theorem claim_c2_amended_piece_fields_witness :
    ∃ pieces : List PackageInfo,
      c2Out = [] ++ pieces ∧ pieces.length = c2Manifest.pieces.length ∧
      ∀ i (hi : i < pieces.length),
        (pieces.get ⟨i, hi⟩).part_number = none ∧
        (pieces.get ⟨i, hi⟩).version =
          (if c2Manifest.number_of_split_files > 1 then
            c2Parent.version ++ " - part " ++ toString (i + 1) ++ " of " ++
              toString c2Manifest.number_of_split_files
          else c2Parent.version) :=
  claim_c2_amended_piece_fields c2Manifest c2Parent [] c2Out (by decide)

/-- The update and filesystem of the C1 merge-order run: two parts
listed in descending part-number order, both present on disk. -/
def c1Update : UpdateInfo :=
  { title_id := "CUSA00001", tag_name := "", titles := ["Game"]
    packages := [
      { PackageInfo.empty with
          url := "http://example.com/game_1.pkg", size := 5, sha1sum := "s2"
          hash_whole_file := true, offset := 5, part_number := some 2 },
      { PackageInfo.empty with
          url := "http://example.com/game_0.pkg", size := 5, sha1sum := "s1"
          hash_whole_file := true, offset := 0, part_number := some 1 }]
    platform_variant := .PS4 }

/-- On-disk parts for the C1 run. -/
def c1Fs : Fs :=
  [("dl/CUSA00001 - Game/game_1.pkg", [6, 7, 8, 9, 10]),
   ("dl/CUSA00001 - Game/game_0.pkg", [1, 2, 3, 4, 5])]

/-- C1: with the packages listed in descending part-number order, the
merge copies part 2 before part 1 — the loop iterates `self.packages` in
their original order, the sorted copy `packages_sorted_by_part_number`
being dead — refuting "ascending part-number order regardless of the
order of the packages list". The offset part of the claim does hold:
each part's bytes land at its declared offset, so the merged file is
still byte-correct here. -/
theorem claim_c1_merge_order_bug :
    (merge_parts c1Update "dl" c1Fs).events =
      [.PartProgress 2, .PartProgress 1, .MergeSuccess] ∧
    (merge_parts c1Update "dl" c1Fs).ops =
      [.copy "dl/CUSA00001 - Game/game_1.pkg" "dl/CUSA00001 - Game/game.pkg" 5,
       .copy "dl/CUSA00001 - Game/game_0.pkg" "dl/CUSA00001 - Game/game.pkg" 0] ∧
    fsGet (merge_parts c1Update "dl" c1Fs).fs "dl/CUSA00001 - Game/game.pkg" =
      some [1, 2, 3, 4, 5, 6, 7, 8, 9, 10] := by decide

/-- A download that returns success leaves a file that verifies under the
package's hashing policy (both success paths end behind a passed
`hash_file` check). -/
theorem start_download_ok_hash (pkg : PackageInfo) (pkg_file : List Nat)
    (chunks : List (List Nat)) (h : (start_download pkg pkg_file chunks).result = .ok ()) :
    hash_file (start_download pkg pkg_file chunks).file pkg.sha1sum pkg.hash_whole_file = true := by
  unfold start_download at h ⊢
  by_cases h1 : hash_file pkg_file pkg.sha1sum pkg.hash_whole_file = true
  · simp [h1]
  · rw [Bool.not_eq_true] at h1
    by_cases h2 : hash_file (chunks.foldl (fun acc c => acc ++ c) [])
        pkg.sha1sum pkg.hash_whole_file = true
    · simp [h1, h2]
    · rw [Bool.not_eq_true] at h2
      simp [h1, h2] at h

/-- C6: when the destination file already verifies under the package's
`hash_whole_file` policy, `start_download` reads zero body bytes, emits
only the verifying event followed by the success event, returns success
and leaves the file unchanged; consequently a second invocation on the
file produced by any successful download again transfers zero body
bytes. -/
theorem claim_c6_verified_skip_idempotent (pkg : PackageInfo) (pkg_file : List Nat)
    (chunks chunks2 : List (List Nat)) :
    (hash_file pkg_file pkg.sha1sum pkg.hash_whole_file = true →
      start_download pkg pkg_file chunks =
        { events := [.Verifying, .DownloadSuccess], file := pkg_file
          received_data := 0, result := .ok () }) ∧
    ((start_download pkg pkg_file chunks).result = .ok () →
      start_download pkg ((start_download pkg pkg_file chunks).file) chunks2 =
        { events := [.Verifying, .DownloadSuccess]
          file := (start_download pkg pkg_file chunks).file
          received_data := 0, result := .ok () }) := by
  have main : ∀ (f : List Nat) (cs : List (List Nat)),
      hash_file f pkg.sha1sum pkg.hash_whole_file = true →
      start_download pkg f cs =
        { events := [.Verifying, .DownloadSuccess], file := f
          received_data := 0, result := .ok () } := by
    intro f cs hf
    unfold start_download
    simp [hf]
  exact ⟨main pkg_file chunks,
    fun h => main _ chunks2 (start_download_ok_hash pkg pkg_file chunks h)⟩

/-- Package of the C6 witness run: expects the whole-file digest of the
single byte `0x61`. -/
def c6Pkg : PackageInfo :=
  { PackageInfo.empty with
      sha1sum := "86f7e437faa5a7fce15d1ddcb9eaeaea377667b8", hash_whole_file := true }

/-- C6 witness: a file already matching its digest is left untouched with
zero bytes read, on the first and on a repeated invocation. -/
theorem claim_c6_verified_skip_idempotent_witness :
    start_download c6Pkg [97] [[1, 2]] =
      { events := [.Verifying, .DownloadSuccess], file := [97]
        received_data := 0, result := .ok () } ∧
    start_download c6Pkg ((start_download c6Pkg [97] [[1, 2]]).file) [[3]] =
      { events := [.Verifying, .DownloadSuccess]
        file := (start_download c6Pkg [97] [[1, 2]]).file
        received_data := 0, result := .ok () } :=
  ⟨(claim_c6_verified_skip_idempotent c6Pkg [97] [[1, 2]] [[3]]).1 (by decide),
   (claim_c6_verified_skip_idempotent c6Pkg [97] [[1, 2]] [[3]]).2 (by decide)⟩

/-! ### Parser invariants: no code path assigns a part number -/

/-- `modifyLast` with a field update that leaves `part_number` alone
preserves "every package has no part number". -/
theorem modifyLast_part_number (f : PackageInfo → PackageInfo)
    (hf : ∀ x, (f x).part_number = x.part_number) :
    ∀ (l : List PackageInfo), (∀ p ∈ l, p.part_number = none) →
      ∀ p ∈ modifyLast f l, p.part_number = none := by
  intro l
  induction l with
  | nil => simp [modifyLast]
  | cons x rest ih =>
      intro hp p hpm
      cases rest with
      | nil =>
          simp [modifyLast] at hpm
          subst hpm
          rw [hf]
          exact hp x (by simp)
      | cons y t =>
          simp only [modifyLast, List.mem_cons] at hpm
          rcases hpm with h | h
          · subst h
            exact hp p (by simp)
          · exact ih (fun q hq => hp q (List.mem_cons_of_mem x hq)) p h

/-- A start-form `package` attribute never assigns a part number. -/
theorem stepStart_part_number {pkgs pkgs2 : List PackageInfo} {a : XmlAttr}
    (h : stepPackageAttrStart pkgs a = .ok pkgs2)
    (hp : ∀ p ∈ pkgs, p.part_number = none) : ∀ p ∈ pkgs2, p.part_number = none := by
  unfold stepPackageAttrStart at h
  by_cases h1 : a.key = "version"
  · rw [if_pos h1] at h
    cases hv : a.value with
    | none => rw [hv] at h; cases h
    | some v =>
        rw [hv] at h
        injection h with h
        subst h
        intro p hpm
        rcases List.mem_append.mp hpm with hm | hm
        · exact hp p hm
        · simp at hm
          subst hm
          rfl
  · rw [if_neg h1] at h
    by_cases h2 : a.key = "size"
    · rw [if_pos h2] at h
      by_cases hemp : pkgs.isEmpty
      · rw [if_pos hemp] at h
        injection h with h
        subst h
        exact hp
      · rw [if_neg hemp] at h
        cases hv : a.value with
        | none => rw [hv] at h; cases h
        | some v =>
            rw [hv] at h
            injection h with h
            subst h
            exact modifyLast_part_number
              (fun last => { last with size := (parse_u64 v).getD 0 }) (fun x => rfl) pkgs hp
    · rw [if_neg h2] at h
      by_cases h3 : a.key = "sha1sum"
      · rw [if_pos h3] at h
        by_cases hemp : pkgs.isEmpty
        · rw [if_pos hemp] at h
          injection h with h
          subst h
          exact hp
        · rw [if_neg hemp] at h
          cases hv : a.value with
          | none => rw [hv] at h; cases h
          | some v =>
              rw [hv] at h
              injection h with h
              subst h
              exact modifyLast_part_number
                (fun last => { last with sha1sum := v }) (fun x => rfl) pkgs hp
      · rw [if_neg h3] at h
        by_cases h4 : a.key = "url"
        · rw [if_pos h4] at h
          by_cases hemp : pkgs.isEmpty
          · rw [if_pos hemp] at h
            injection h with h
            subst h
            exact hp
          · rw [if_neg hemp] at h
            cases hv : a.value with
            | none => rw [hv] at h; cases h
            | some v =>
                rw [hv] at h
                injection h with h
                subst h
                exact modifyLast_part_number
                  (fun last => { last with url := v }) (fun x => rfl) pkgs hp
        · rw [if_neg h4] at h
          by_cases h5 : a.key = "manifest_url"
          · rw [if_pos h5] at h
            by_cases hemp : pkgs.isEmpty
            · rw [if_pos hemp] at h
              injection h with h
              subst h
              exact hp
            · rw [if_neg hemp] at h
              cases hv : a.value with
              | none => rw [hv] at h; cases h
              | some v =>
                  rw [hv] at h
                  injection h with h
                  subst h
                  exact modifyLast_part_number
                    (fun last => { last with manifest_url := v }) (fun x => rfl) pkgs hp
          · rw [if_neg h5] at h
            injection h with h
            subst h
            exact hp

/-- A `manifest_url` attribute is skipped entirely by the self-closing
form. -/
theorem stepEmpty_manifest_url (pkgs : List PackageInfo) (a : XmlAttr)
    (h : a.key = "manifest_url") : stepPackageAttrEmpty pkgs a = .ok pkgs := by
  unfold stepPackageAttrEmpty
  simp [h]

/-- A self-closing-form `package` attribute never assigns a part number. -/
theorem stepEmpty_part_number {pkgs pkgs2 : List PackageInfo} {a : XmlAttr}
    (h : stepPackageAttrEmpty pkgs a = .ok pkgs2)
    (hp : ∀ p ∈ pkgs, p.part_number = none) : ∀ p ∈ pkgs2, p.part_number = none := by
  by_cases hk : a.key = "manifest_url"
  · rw [stepEmpty_manifest_url pkgs a hk] at h
    injection h with h
    subst h
    exact hp
  · rw [stepEmpty_eq_start pkgs a hk] at h
    exact stepStart_part_number h hp

/-- Attribute processing never assigns a part number, for any step
function that never does. -/
theorem processAttrs_part_number
    (step : List PackageInfo → XmlAttr → Except ParseError (List PackageInfo))
    (hstep : ∀ {pkgs pkgs2 : List PackageInfo} {a : XmlAttr}, step pkgs a = .ok pkgs2 →
      (∀ p ∈ pkgs, p.part_number = none) → ∀ p ∈ pkgs2, p.part_number = none) :
    ∀ (attrs : List XmlAttr) {pkgs pkgs2 : List PackageInfo},
      processAttrs step attrs pkgs = .ok pkgs2 →
      (∀ p ∈ pkgs, p.part_number = none) → ∀ p ∈ pkgs2, p.part_number = none := by
  intro attrs
  induction attrs with
  | nil =>
      intro pkgs pkgs2 h hp
      injection h with h
      subst h
      exact hp
  | cons a rest ih =>
      intro pkgs pkgs2 h hp
      unfold processAttrs at h
      cases hs : step pkgs a with
      | error e => rw [hs] at h; cases h
      | ok mid =>
          rw [hs] at h
          exact ih h (hstep hs hp)

/-- The packages invariant for one parser state. -/
def PartsNone (st : PState) : Prop := ∀ p ∈ st.info.packages, p.part_number = none

/-- `handleStartCore` never assigns a part number. -/
theorem handleStartCore_part_number {name : String} {attrs : List XmlAttr} {st st2 : PState}
    (h : handleStartCore name attrs st = .ok st2) (hp : PartsNone st) : PartsNone st2 := by
  unfold handleStartCore at h
  by_cases h1 : name = "titlepatch"
  · rw [if_pos h1] at h
    injection h with h
    subst h
    exact hp
  · rw [if_neg h1] at h
    by_cases h2 : name = "tag"
    · rw [if_pos h2] at h
      injection h with h
      subst h
      exact hp
    · rw [if_neg h2] at h
      by_cases h3 : name = "package"
      · rw [if_pos h3] at h
        cases hs : processAttrs stepPackageAttrStart attrs st.info.packages with
        | error e => rw [hs] at h; cases h
        | ok pkgs =>
            rw [hs] at h
            injection h with h
            subst h
            exact processAttrs_part_number _ (fun ha hb => stepStart_part_number ha hb)
              attrs hs hp
      · rw [if_neg h3] at h
        by_cases h4 : name = "Error"
        · rw [if_pos h4] at h
          injection h with h
          subst h
          exact hp
        · rw [if_neg h4] at h
          by_cases h5 : name = "Code"
          · rw [if_pos h5] at h
            by_cases h6 : st.err_encountered
            · simp only [h6, Bool.not_true, Bool.false_eq_true, if_neg, ite_false] at h
              injection h with h
              subst h
              exact hp
            · simp only [Bool.not_eq_true] at h6
              simp only [h6, Bool.not_false, if_pos, ite_true] at h
              injection h with h
              subst h
              exact hp
          · rw [if_neg h5] at h
            by_cases h7 : strStartsWith name "TITLE" = true
            · rw [if_pos h7] at h
              injection h with h
              subst h
              exact hp
            · rw [if_neg h7] at h
              injection h with h
              subst h
              exact hp

/-- `handleStart` never assigns a part number (the depth bump does not
touch the packages). -/
theorem handleStart_part_number {name : String} {attrs : List XmlAttr} {st st2 : PState}
    (h : handleStart name attrs st = .ok st2) (hp : PartsNone st) : PartsNone st2 :=
  handleStartCore_part_number h hp

/-- `handleEvent` never assigns a part number; at `Eof` it returns the
accumulated record unchanged. -/
theorem handleEvent_part_number (ev : XmlEvent) (st : PState) :
    (∀ {st2}, handleEvent ev st = .ok (.cont st2) → PartsNone st → PartsNone st2) ∧
    (∀ {out}, handleEvent ev st = .ok (.stop out) → PartsNone st →
      ∀ p ∈ out.packages, p.part_number = none) := by
  cases ev with
  | start name attrs =>
      constructor
      · intro st2 h hp
        simp only [handleEvent] at h
        cases hs : handleStart name attrs st with
        | error e => rw [hs] at h; cases h
        | ok stm =>
            rw [hs] at h
            injection h with h
            injection h with h
            subst h
            exact handleStart_part_number hs hp
      · intro out h
        simp only [handleEvent] at h
        cases hs : handleStart name attrs st with
        | error e => rw [hs] at h; cases h
        | ok stm => rw [hs] at h; injection h with h; cases h
  | endE =>
      constructor
      · intro st2 h hp
        simp only [handleEvent] at h
        injection h with h
        injection h with h
        subst h
        exact hp
      · intro out h
        simp only [handleEvent] at h
        injection h with h
        cases h
  | empty name attrs =>
      constructor
      · intro st2 h hp
        simp only [handleEvent] at h
        by_cases hn : name = "package"
        · rw [if_pos hn] at h
          cases hs : processAttrs stepPackageAttrEmpty attrs st.info.packages with
          | error e => rw [hs] at h; cases h
          | ok pkgs =>
              rw [hs] at h
              injection h with h
              injection h with h
              subst h
              exact processAttrs_part_number _ (fun ha hb => stepEmpty_part_number ha hb)
                attrs hs hp
        · rw [if_neg hn] at h
          injection h with h
          injection h with h
          subst h
          exact hp
      · intro out h
        simp only [handleEvent] at h
        by_cases hn : name = "package"
        · rw [if_pos hn] at h
          cases hs : processAttrs stepPackageAttrEmpty attrs st.info.packages with
          | error e => rw [hs] at h; cases h
          | ok pkgs => rw [hs] at h; injection h with h; cases h
        · rw [if_neg hn] at h
          injection h with h
          cases h
  | text content =>
      constructor
      · intro st2 h hp
        simp only [handleEvent] at h
        by_cases ht : st.title_element = true
        · rw [if_pos ht] at h
          cases hc : content with
          | none => rw [hc] at h; cases h
          | some t =>
              rw [hc] at h
              injection h with h
              injection h with h
              subst h
              exact hp
        · rw [if_neg ht] at h
          by_cases he : st.err_code_encountered = true
          · rw [if_pos he] at h
            cases hc : content with
            | none => rw [hc] at h; cases h
            | some t => rw [hc] at h; cases h
          · rw [if_neg he] at h
            injection h with h
            injection h with h
            subst h
            exact hp
      · intro out h
        simp only [handleEvent] at h
        by_cases ht : st.title_element = true
        · rw [if_pos ht] at h
          cases hc : content with
          | none => rw [hc] at h; cases h
          | some t => rw [hc] at h; injection h with h; cases h
        · rw [if_neg ht] at h
          by_cases he : st.err_code_encountered = true
          · rw [if_pos he] at h
            cases hc : content with
            | none => rw [hc] at h; cases h
            | some t => rw [hc] at h; cases h
          · rw [if_neg he] at h
            injection h with h
            cases h
  | eof =>
      constructor
      · intro st2 h hp
        simp only [handleEvent] at h
        injection h with h
        cases h
      · intro out h hp
        simp only [handleEvent] at h
        injection h with h
        injection h with h
        subst h
        exact hp
  | other =>
      constructor
      · intro st2 h hp
        simp only [handleEvent] at h
        injection h with h
        injection h with h
        subst h
        exact hp
      · intro out h
        simp only [handleEvent] at h
        injection h with h
        cases h

/-- The parser loop never assigns a part number. -/
theorem parseLoop_part_number :
    ∀ (events : List XmlEvent) {st : PState} {out : UpdateInfo},
      parseLoop events st = .ok out → PartsNone st →
      ∀ p ∈ out.packages, p.part_number = none := by
  intro events
  induction events with
  | nil =>
      intro st out h hp
      injection h with h
      subst h
      exact hp
  | cons ev rest ih =>
      intro st out h hp
      unfold parseLoop at h
      cases hs : handleEvent ev st with
      | error e => rw [hs] at h; cases h
      | ok res =>
          rw [hs] at h
          cases res with
          | cont st2 => exact ih h ((handleEvent_part_number ev st).1 hs hp)
          | stop info =>
              injection h with h
              subst h
              exact (handleEvent_part_number ev st).2 hs hp

/-- `parse_response` never assigns a part number. -/
theorem parse_response_part_number {events : List XmlEvent} {info out : UpdateInfo}
    (h : parse_response events info = .ok out)
    (hp : ∀ p ∈ info.packages, p.part_number = none) :
    ∀ p ∈ out.packages, p.part_number = none :=
  parseLoop_part_number events h hp

/-! ### Resolver invariants -/

/-- Shape of a successful piece-manifest parse: the manifest was
deserialized, has at least one piece, and the output appends one
non-empty batch of piece packages, none of which carries a part
number. -/
theorem parse_manifest_ok_shape {m : Option Manifest} {parent : PackageInfo}
    {packages out : List PackageInfo}
    (h : parse_manifest_response m parent packages = .ok out) :
    ∃ pieces : List PackageInfo,
      out = packages ++ pieces ∧ pieces ≠ [] ∧ ∀ p ∈ pieces, p.part_number = none := by
  cases m with
  | none => cases h
  | some manifest =>
      simp only [parse_manifest_response] at h
      by_cases he : manifest.pieces.isEmpty = true
      · rw [if_pos he] at h
        cases h
      · rw [if_neg he] at h
        injection h with h
        refine ⟨_, h.symm, ?_, ?_⟩
        · intro hcon
          have hthis := congrArg List.length hcon
          simp only [List.length_map, List.enum_length, List.length_nil] at hthis
          rw [List.length_eq_zero] at hthis
          rw [hthis] at he
          simp [List.isEmpty] at he
        · intro p hp
          obtain ⟨ip, _, hip⟩ := List.mem_map.mp hp
          subst hip
          rfl

/-- What the PS4 expansion loop preserves and produces: the title id is
untouched, no part number is ever assigned, and the package list is
non-empty as soon as the incoming list is non-empty or at least one
parent package is processed. -/
theorem expandLoop_inv :
    ∀ (parents : List PackageInfo) (ms : List (Option Manifest)) (info out : UpdateInfo),
      expandLoop parents ms info = .ok out →
      out.title_id = info.title_id ∧
      ((∀ p ∈ info.packages, p.part_number = none) →
        ∀ p ∈ out.packages, p.part_number = none) ∧
      ((info.packages ≠ [] ∨ parents ≠ []) → out.packages ≠ []) := by
  intro parents
  induction parents with
  | nil =>
      intro ms info out h
      injection h with h
      subst h
      refine ⟨rfl, fun hp => hp, ?_⟩
      rintro (hne | hne)
      · exact hne
      · exact absurd rfl hne
  | cons p ps ih =>
      intro ms info out h
      simp only [expandLoop] at h
      cases hs : parse_manifest_response (ms.head?.getD none) p info.packages with
      | error e =>
          cases e <;> rw [hs] at h <;> cases h
      | ok pkgs =>
          rw [hs] at h
          obtain ⟨pieces, hout, hpne, hpnone⟩ := parse_manifest_ok_shape hs
          obtain ⟨ht, hparts, hne⟩ := ih (ms.drop 1) { info with packages := pkgs } out h
          refine ⟨ht, ?_, ?_⟩
          · intro hp
            apply hparts
            intro q hq
            simp only at hq
            rw [hout] at hq
            rcases List.mem_append.mp hq with hm | hm
            · exact hp q hm
            · exact hpnone q hm
          · intro _
            apply hne
            left
            simp only
            rw [hout]
            intro hcon
            exact hpne (List.append_eq_nil.mp hcon).2

/-- Every successful resolution satisfies the record invariants: no
package carries a part number, the title id is non-empty, and the
package list is non-empty. -/
theorem get_info_ok_inv {raw resp : String} {ev : List XmlEvent}
    {ms : List (Option Manifest)} {out : UpdateInfo}
    (h : get_info raw resp ev ms = .ok out) :
    (∀ p ∈ out.packages, p.part_number = none) ∧
    strIsEmpty out.title_id = false ∧ out.packages ≠ [] := by
  have hfix_pkgs : ∀ info : UpdateInfo, (fixTitles info).packages = info.packages :=
    fun _ => rfl
  have hfix_tid : ∀ info : UpdateInfo, (fixTitles info).title_id = info.title_id :=
    fun _ => rfl
  have hmain : ∀ (v : PlaformVariant) (info : UpdateInfo),
      resolveParsed v ms info = .ok out →
      (∀ p ∈ info.packages, p.part_number = none) →
      (∀ p ∈ out.packages, p.part_number = none) ∧
      strIsEmpty out.title_id = false ∧ out.packages ≠ [] := by
    intro v info hrp hinfo_none
    unfold resolveParsed at hrp
    by_cases hempty : (strIsEmpty info.title_id || info.packages.isEmpty) = true
    · rw [if_pos hempty] at hrp
      cases hrp
    · rw [if_neg hempty] at hrp
      rw [Bool.not_eq_true, Bool.or_eq_false_iff] at hempty
      obtain ⟨htid, hpk⟩ := hempty
      have hne : info.packages ≠ [] := by
        intro hcon
        rw [hcon] at hpk
        simp [List.isEmpty] at hpk
      by_cases hv4 : v = PlaformVariant.PS4
      · subst hv4
        rw [if_neg (by simp)] at hrp
        obtain ⟨ht, hparts, hpne⟩ := expandLoop_inv _ _ _ _ hrp
        refine ⟨?_, ?_, ?_⟩
        · apply hparts
          intro p hmem
          cases hmem
        · rw [ht]
          exact htid
        · apply hpne
          right
          rw [hfix_pkgs]
          exact hne
      · rw [if_pos hv4] at hrp
        injection hrp with hrp
        subst hrp
        refine ⟨?_, ?_, ?_⟩
        · rw [hfix_pkgs]
          exact hinfo_none
        · rw [hfix_tid]
          exact htid
        · rw [hfix_pkgs]
          exact hne
  simp only [get_info] at h
  cases hv : get_platform_variant (parse_title_id raw) with
  | none => rw [hv] at h; cases h
  | some v =>
      simp only [hv] at h
      simp only [get_update_info_url_ok (parse_title_id raw) v] at h
      by_cases hre : strIsEmpty resp = true
      · rw [if_pos hre] at h
        cases h
      · rw [if_neg hre] at h
        by_cases hnf : strContains resp "Not found" = true
        · rw [if_pos hnf] at h
          cases h
        · rw [if_neg hnf] at h
          cases hp : parse_response ev (UpdateInfo.empty v) with
          | error pe =>
              cases pe with
              | ErrorCode reason =>
                  simp only [hp] at h
                  by_cases hr : reason = "NoSuchKey"
                  · rw [if_pos hr] at h
                    cases h
                  · rw [if_neg hr] at h
                    cases h
              | XmlParsing =>
                  simp only [hp] at h
                  cases h
          | ok info =>
              simp only [hp] at h
              exact hmain v info h
                (parse_response_part_number hp (by intro p hmem; cases hmem))

/-- C7: a successful resolution always carries a non-empty title id and
a non-empty package list; a zero-piece manifest parses to
`NoPartsFound` and the resolver promotes that to `NoUpdatesAvailable`
rather than an empty success; and an XML parse that yields an empty
title id or an empty package list is returned by the resolver as the
`NoUpdatesAvailable` error specifically. -/
theorem claim_c7_success_nonempty :
    (∀ (raw resp : String) (ev : List XmlEvent) (ms : List (Option Manifest))
        (out : UpdateInfo), get_info raw resp ev ms = .ok out →
      strIsEmpty out.title_id = false ∧ out.packages ≠ []) ∧
    (∀ (m : Manifest) (parent : PackageInfo) (pkgs : List PackageInfo),
      m.pieces = [] → parse_manifest_response (some m) parent pkgs = .error .NoPartsFound) ∧
    (∀ (parent : PackageInfo) (rest : List PackageInfo) (ms : List (Option Manifest))
        (info : UpdateInfo) (m : Manifest), m.pieces = [] →
      expandLoop (parent :: rest) (some m :: ms) info = .error .NoUpdatesAvailable) ∧
    (∀ (raw resp : String) (ev : List XmlEvent) (ms : List (Option Manifest))
        (v : PlaformVariant) (info : UpdateInfo),
      get_platform_variant (parse_title_id raw) = some v →
      strIsEmpty resp = false →
      strContains resp "Not found" = false →
      parse_response ev (UpdateInfo.empty v) = .ok info →
      (strIsEmpty info.title_id || info.packages.isEmpty) = true →
      get_info raw resp ev ms = .error .NoUpdatesAvailable) := by
  refine ⟨?_, ?_, ?_, ?_⟩
  · intro raw resp ev ms out h
    obtain ⟨_, h2, h3⟩ := get_info_ok_inv h
    exact ⟨h2, h3⟩
  · intro m parent pkgs hm
    unfold parse_manifest_response
    simp [hm]
  · intro parent rest ms info m hm
    simp only [expandLoop]
    have hparse : parse_manifest_response ((some m :: ms).head?.getD none) parent
        info.packages = .error .NoPartsFound := by
      show parse_manifest_response (some m) parent info.packages = _
      unfold parse_manifest_response
      simp [hm]
    simp only [hparse]
  · intro raw resp ev ms v info hv hre hnf hp hempty
    simp only [get_info, hv, get_update_info_url_ok (parse_title_id raw) v]
    rw [if_neg (by simp [hre])]
    rw [if_neg (by simp [hnf])]
    simp only [hp]
    unfold resolveParsed
    rw [if_pos hempty]

/-- Resolved update of the C7 witness run. -/
def c7Out : UpdateInfo :=
  { title_id := "NPUB30826", tag_name := "", titles := []
    packages := [{ PackageInfo.empty with version := "01.01" }]
    platform_variant := .PS3 }

/-- Zero-piece manifest of the C7 witness run. -/
def c7EmptyManifest : Manifest :=
  { original_file_size := 0, package_digest := "d", number_of_split_files := 0, pieces := [] }

/-- C7 witness: a concrete successful PS3 resolution has non-empty title
id and packages, a concrete zero-piece manifest is promoted to
`NoUpdatesAvailable` by the expansion loop, and a concrete parse with an
empty title id is returned as `NoUpdatesAvailable`. -/
theorem claim_c7_success_nonempty_witness :
    (strIsEmpty c7Out.title_id = false ∧ c7Out.packages ≠ []) ∧
    parse_manifest_response (some c7EmptyManifest) PackageInfo.empty [] =
      .error .NoPartsFound ∧
    expandLoop [PackageInfo.empty] [some c7EmptyManifest] (UpdateInfo.empty .PS4) =
      .error .NoUpdatesAvailable ∧
    get_info "NPUA80523" "<resp>" [.eof] [] = .error .NoUpdatesAvailable :=
  ⟨claim_c7_success_nonempty.1 "NPUB30826" "<resp>"
      [.start "titlepatch" [⟨"titleid", some "NPUB30826"⟩],
       .start "package" [⟨"version", some "01.01"⟩], .eof] [] c7Out (by decide),
   claim_c7_success_nonempty.2.1 c7EmptyManifest PackageInfo.empty [] rfl,
   claim_c7_success_nonempty.2.2.1 PackageInfo.empty [] [] (UpdateInfo.empty .PS4)
     c7EmptyManifest rfl,
   claim_c7_success_nonempty.2.2.2 "NPUA80523" "<resp>" [.eof] []
     PlaformVariant.PS3 (UpdateInfo.empty .PS3)
     (by decide) (by decide) (by decide) (by decide) (by decide)⟩

/-- C3: every package of any successfully resolved update has
`part_number = none` — neither the XML parser nor the piece-manifest
expansion ever assigns one — and therefore `merge_parts` on any resolved
update fails with `PackagesUnmergable` without touching the
filesystem. -/
theorem claim_c3_resolved_unmergable (raw resp : String) (ev : List XmlEvent)
    (ms : List (Option Manifest)) (out : UpdateInfo)
    (h : get_info raw resp ev ms = .ok out) :
    (∀ p ∈ out.packages, p.part_number = none) ∧
    (∀ (download_path : String) (fs : Fs),
      merge_parts out download_path fs =
        { result := .error
            (.PackagesUnmergable "some packages for the update are not a partial package")
          events := [], fs := fs, ops := [] }) := by
  obtain ⟨hnone, _, hne⟩ := get_info_ok_inv h
  refine ⟨hnone, fun dp fs => ?_⟩
  obtain ⟨p0, hp0⟩ := List.exists_mem_of_ne_nil out.packages hne
  have hall : out.packages.all (fun p => p.part_number.isSome) = false := by
    rw [List.all_eq_false]
    exact ⟨p0, hp0, by simp [hnone p0 hp0]⟩
  simp [merge_parts, hall]

/-- Resolved update of the C3 witness run. -/
def c3Out : UpdateInfo :=
  { title_id := "BCUS98148", tag_name := "", titles := []
    packages := [{ PackageInfo.empty with version := "01.01" }]
    platform_variant := .PS3 }

/-- C3 witness: merging a concrete successfully resolved PS3 update
fails with `PackagesUnmergable` and performs no filesystem access. -/
theorem claim_c3_resolved_unmergable_witness :
    merge_parts c3Out "dl" [] =
      { result := .error
          (.PackagesUnmergable "some packages for the update are not a partial package")
        events := [], fs := [], ops := [] } :=
  (claim_c3_resolved_unmergable "BCUS98148" "<resp>"
      [.start "titlepatch" [⟨"titleid", some "BCUS98148"⟩],
       .start "package" [⟨"version", some "01.01"⟩], .eof] [] c3Out (by decide)).2 "dl" []

end Psn
